import Mathlib

/-!
Verification development for the SubstratumNode neighborhood protocol.

The repository source under scrutiny is
`multinode_integration_tests/src/neighborhood_constructor.rs`, a harness
that builds a `NeighborhoodDatabase` of `NodeRecord`s and drives the
gossip protocol engine (node record signing, topology store,
gossip producer, merge engine) described by the specification.

Embedding conventions:
- `PublicKey` and `NodeAddr` are modelled as `Nat` (opaque identifiers).
- A `Signature` is modelled as `Option NodeRecordInner`: `some i`
  represents a signature over the canonical encoding of the inner
  payload `i`; it verifies against a record exactly when `i` equals the
  record's own inner payload. `none` (or a `some` of a different inner)
  represents a forged, tampered or missing signature. This models the
  spec's deterministic, encoding-stable, content-binding signer/verifier
  abstraction (and the `CryptDENull` signer of the harness, under which
  any party can produce a verifying signature).
- Stateful Rust code (in-place mutation of records and databases) is
  embedded as explicit state passing; fallible code returns `Option`.
-/

namespace Substratum

/-- Opaque node identifier, the unique key throughout. -/
abbrev PublicKey := Nat

/-- Reachability information for a node (opaque). -/
abbrev NodeAddr := Nat

/-- The signed payload of a node record: identity, monotonically
increasing version, and declared neighbor set.
(The source harness accesses `inner.version`, `inner.neighbors` and
`public_key()`; addresses live in the record metadata, as in the source.) -/
structure NodeRecordInner where
  public_key : PublicKey
  version : Nat
  neighbors : Finset PublicKey
deriving DecidableEq

/-- A signature over a canonical encoding of a `NodeRecordInner`; see the
module conventions above. -/
abbrev Signature := Option NodeRecordInner

/-- Local-only record metadata: the desirability flag and the resolved
network address (`node_addr_opt` in the source). -/
structure NodeRecordMetadata where
  desirable : Bool
  node_addr_opt : Option NodeAddr
deriving DecidableEq

/-- The authenticated unit of topology knowledge about one node, as
constructed field-by-field in `from_substratum_node_to_node_record`:
inner payload, metadata, the signed plaintext and the signature. -/
structure NodeRecord where
  inner : NodeRecordInner
  metadata : NodeRecordMetadata
  signed_gossip : NodeRecordInner
  signature : Signature
deriving DecidableEq

namespace NodeRecord

/-- `NodeRecord::public_key()`. -/
def public_key (r : NodeRecord) : PublicKey := r.inner.public_key

/-- `NodeRecord::node_addr_opt()` — returns the metadata address. -/
def node_addr_opt (r : NodeRecord) : Option NodeAddr := r.metadata.node_addr_opt

/-- `NodeRecord::half_neighbor_keys()` — the record's declared neighbor
set. -/
def half_neighbor_keys (r : NodeRecord) : Finset PublicKey := r.inner.neighbors

/-- `NodeRecord::set_version(v)`. -/
def set_version (r : NodeRecord) (v : Nat) : NodeRecord :=
  { r with inner := { r.inner with version := v } }

/-- `NodeRecord::resign()` — recompute the signed plaintext and the
signature from the current inner payload (under the harness's
`CryptDENull`-style signer, any caller can do this for any key). -/
def resign (r : NodeRecord) : NodeRecord :=
  { r with signed_gossip := r.inner, signature := some r.inner }

end NodeRecord

/-- Modelled from the spec: `verify(record)` of the Node Record component
(code not under `src/`) — recompute the canonical encoding of
`record.inner` and check `record.signature` against
`record.inner.public_key`. -/
def verify (r : NodeRecord) : Bool :=
  decide (r.signature = some r.inner)

/-- Modelled from the spec: the wire form `GossipRecord`
`(inner, signature, network_address?)` (code not under `src/`);
`metadata` is never serialized beyond the optional address. -/
structure GossipRecord where
  inner : NodeRecordInner
  signature : Signature
  node_addr_opt : Option NodeAddr
deriving DecidableEq

/-- Modelled from the spec: signature verification of a wire record. -/
def verify_wire (g : GossipRecord) : Bool :=
  decide (g.signature = some g.inner)

/-- Modelled from the spec: reconstruction of a local `NodeRecord` from a
received wire record (code not under `src/`): the inner payload, address
and signature are taken verbatim; fresh local metadata is attached. -/
def GossipRecord.toNodeRecord (g : GossipRecord) : NodeRecord :=
  { inner := g.inner
    metadata := { desirable := true, node_addr_opt := g.node_addr_opt }
    signed_gossip := g.inner
    signature := g.signature }

/-- A gossip payload: an ordered sequence of wire records. -/
abbrev Gossip := List GossipRecord

/-- The local topology store: the local node's key and the node-keyed
record collection (kept in insertion order, per the spec). -/
structure NeighborhoodDatabase where
  root_key : PublicKey
  records : List NodeRecord
deriving DecidableEq

namespace NeighborhoodDatabase

/-- `node_by_key(k)` — lookup of the record for key `k`. -/
def node_by_key (db : NeighborhoodDatabase) (k : PublicKey) : Option NodeRecord :=
  db.records.find? (fun r => r.inner.public_key == k)

/-- In-place replacement of the record whose key matches `r`'s key. -/
def replace_record (db : NeighborhoodDatabase) (r : NodeRecord) : NeighborhoodDatabase :=
  { db with records :=
      db.records.map (fun e => if e.inner.public_key == r.inner.public_key then r else e) }

end NeighborhoodDatabase

/-- Modelled from the spec: `add_or_replace(record)` of the Topology
Store (code not under `src/`) — inserts if absent; if present, replaces
only if `record.inner.version > existing.inner.version` AND
`verify(record)` succeeds, otherwise the call is a no-op. -/
def add_or_replace (db : NeighborhoodDatabase) (r : NodeRecord) : NeighborhoodDatabase :=
  match db.node_by_key r.inner.public_key with
  | none => { db with records := db.records ++ [r] }
  | some existing =>
    if r.inner.version > existing.inner.version ∧ verify r = true then
      db.replace_record r
    else
      db

/-- Modelled from the spec: steps 1 and 2 of the Merge Engine's
`accept(store, sender_key, gossip)` (code not under `src/`) — every wire
record is signature-verified; records that fail are dropped without
aborting the batch; each surviving record is applied via
`add_or_replace`. -/
def accept (db : NeighborhoodDatabase) (gossip : Gossip) : NeighborhoodDatabase :=
  gossip.foldl
    (fun s g => if verify_wire g = true then add_or_replace s g.toNodeRecord else s) db

/-- Whether the record held for `a` declares `b` as a neighbor. -/
def lists_as_neighbor (db : NeighborhoodDatabase) (a b : PublicKey) : Bool :=
  match db.node_by_key a with
  | some ra => decide (b ∈ ra.inner.neighbors)
  | none => false

/-- A full-neighbor edge between `a` and `b`: both records list each
other. -/
def has_full_neighbor (db : NeighborhoodDatabase) (a b : PublicKey) : Bool :=
  lists_as_neighbor db a b && lists_as_neighbor db b a

/-- Modelled from the spec: "the subject and recipient are already
mutually known" — their held records mutually list each other. -/
def mutually_known (db : NeighborhoodDatabase) (a b : PublicKey) : Bool :=
  lists_as_neighbor db a b && lists_as_neighbor db b a

/-- Modelled from the spec: the Gossip Producer's address-disclosure
condition — a record's address is included only if the subject is a
full-neighbor of the local node, or the subject is the recipient itself,
or the subject and recipient are already mutually known. -/
def reveal_address (db : NeighborhoodDatabase) (recipient : PublicKey)
    (r : NodeRecord) : Bool :=
  has_full_neighbor db db.root_key r.inner.public_key
    || (r.inner.public_key == recipient)
    || mutually_known db r.inner.public_key recipient

/-- Modelled from the spec: `produce(store, recipient_key)` of the Gossip
Producer (code not under `src/`) — discloses every held record (the local
node's own record is held in the store, so it is always included), in
insertion order, with the address redacted unless `reveal_address`
authorizes its disclosure. -/
def produce (db : NeighborhoodDatabase) (recipient : PublicKey) : Gossip :=
  db.records.map (fun r =>
    { inner := r.inner
      signature := r.signature
      node_addr_opt :=
        if reveal_address db recipient r = true then r.metadata.node_addr_opt else none })

/-! ### The harness (`neighborhood_constructor.rs`) -/

/-- The gossip-visible data of a running `SubstratumNode` handle, as read
by `from_substratum_node_to_node_record` via
`AccessibleGossipRecord::from(substratum_node)` (the conversion itself is
`node_lib` code not under `src/`; a node handle is modelled here by the
`AccessibleGossipRecord` it yields). -/
structure AccessibleGossipRecord where
  inner : NodeRecordInner
  node_addr_opt : Option NodeAddr
  signed_gossip : NodeRecordInner
  signature : Signature
deriving DecidableEq

/-- `from_substratum_node_to_node_record` — builds a `NodeRecord` from a
node handle's `AccessibleGossipRecord`: the inner payload, signed
plaintext and signature are copied verbatim, and fresh metadata is
attached with `desirable: true` and the handle's address. -/
def from_substratum_node_to_node_record (agr : AccessibleGossipRecord) : NodeRecord :=
  { inner := agr.inner
    metadata := { desirable := true, node_addr_opt := agr.node_addr_opt }
    signed_gossip := agr.signed_gossip
    signature := agr.signature }

/-- The mock-node map of the harness, modelled by the partial function
from a public key to the corresponding mock node's address
(`mock_node_map.get(key).map(|n| n.node_addr())`). -/
abbrev MockNodeMap := PublicKey → Option NodeAddr

/-- `modify_node(gossip_node, model_node, mock_node_map)` — gives
`gossip_node` the mock node's address for its key (falling back to the
model node's address), sets `inner.version` to 2, sets `inner.neighbors`
to the model node's `half_neighbor_keys()`, and re-signs. -/
def modify_node (gossip_node model_node : NodeRecord) (mock_node_map : MockNodeMap) :
    NodeRecord :=
  let addr_opt :=
    match mock_node_map gossip_node.public_key with
    | some addr => some addr
    | none => model_node.node_addr_opt
  let step1 :=
    { gossip_node with metadata := { gossip_node.metadata with node_addr_opt := addr_opt } }
  let step2 := { step1 with inner := { step1.inner with version := 2 } }
  let step3 :=
    { step2 with inner := { step2.inner with neighbors := model_node.half_neighbor_keys } }
  step3.resign

/-- `make_modified_node_records(model_db, mock_node_map)` — clones each
record of the model database and runs `modify_node` on the clone against
its model record (the model database is modelled by its record list). -/
def make_modified_node_records (model_records : List NodeRecord)
    (mock_node_map : MockNodeMap) : List NodeRecord :=
  model_records.map (fun model_node => modify_node model_node model_node mock_node_map)

/-- `local_db_from_node(node)` — `db_from_node` (a `node_lib` test
utility not under `src/`, modelled from its use here: it creates a
database rooted at the given node) followed by overwriting the root's
inner payload with `node.inner` and re-signing the root. -/
def local_db_from_node (node : NodeRecord) : NeighborhoodDatabase :=
  { root_key := node.public_key, records := [node.resign] }

/-- `NeighborhoodDatabase::add_node(record)` (a `node_lib` operation not
under `src/`, modelled from its use here and the spec's store shape): it
fails if a record with the same key is already present, otherwise inserts
the record. The harness calls `.unwrap()` on the result. -/
def add_node (db : NeighborhoodDatabase) (r : NodeRecord) :
    Option NeighborhoodDatabase :=
  match db.node_by_key r.public_key with
  | some _ => none
  | none => some { db with records := db.records ++ [r] }

/-- `root_mut().set_version(2)` — update the root record's version in
place (without re-signing, exactly as `make_modified_db` does). -/
def set_root_version (db : NeighborhoodDatabase) (v : Nat) : NeighborhoodDatabase :=
  { db with records :=
      db.records.map (fun r =>
        if r.inner.public_key == db.root_key then r.set_version v else r) }

/-- `make_modified_db(real_node, modified_nodes)` — builds the database
the real node is expected to hold: a root from the real node's record
with its version set to 2, plus, for every modified record with a key
other than the real node's, a clone with version set to 2, re-signed and
added via `add_node` (whose failure the harness unwraps, modelled by
`Option`). -/
def make_modified_db (real_node_record : NodeRecord)
    (modified_nodes : List NodeRecord) : Option NeighborhoodDatabase :=
  let db0 := set_root_version (local_db_from_node real_node_record) 2
  (modified_nodes.filter
      (fun node => node.public_key != real_node_record.public_key)).foldl
    (fun acc node => acc.bind (fun db =>
      add_node db ((node.set_version 2).resign)))
    (some db0)

/-- The database-construction part of `construct_neighborhood`: the
returned `NeighborhoodDatabase` is `make_modified_db` of the real node's
record and the modified model records. (Cluster startup and gossip
transmission are external side effects; the real node is modelled by its
`AccessibleGossipRecord`.) -/
def construct_neighborhood_db (real_node_agr : AccessibleGossipRecord)
    (model_records : List NodeRecord) (mock_node_map : MockNodeMap) :
    Option NeighborhoodDatabase :=
  make_modified_db (from_substratum_node_to_node_record real_node_agr)
    (make_modified_node_records model_records mock_node_map)

/-! ### Lookup lemmas for the store operations -/

theorem find?_replace_list (l : List NodeRecord) (r : NodeRecord) (k : PublicKey) :
    (l.map (fun e => if e.inner.public_key == r.inner.public_key then r else e)).find?
        (fun e => e.inner.public_key == k) =
      if r.inner.public_key = k then
        (l.find? (fun e => e.inner.public_key == k)).map (fun _ => r)
      else l.find? (fun e => e.inner.public_key == k) := by
  induction l with
  | nil => by_cases hrk : r.inner.public_key = k <;> simp [hrk]
  | cons e l ih =>
    by_cases her : e.inner.public_key = r.inner.public_key
    · by_cases hrk : r.inner.public_key = k
      · have h1 : (e.inner.public_key == k) = true := by simp [her, hrk]
        have h2 : (r.inner.public_key == k) = true := by simp [hrk]
        simp [her, hrk, List.find?_cons_of_pos, h1, h2]
      · have h1 : (e.inner.public_key == k) = false := by
          simp only [beq_eq_false_iff_ne, ne_eq]
          exact fun h => hrk (her ▸ h)
        have h2 : (r.inner.public_key == k) = false := by
          simp only [beq_eq_false_iff_ne, ne_eq]; exact hrk
        simp only [List.map_cons]
        rw [List.find?_cons_of_neg _ (by simp [her, h2]),
          List.find?_cons_of_neg _ (by simp [h1]), ih, if_neg hrk]
    · have hmap : (if (e.inner.public_key == r.inner.public_key) = true then r else e) = e := by
        simp [her]
      by_cases hek : e.inner.public_key = k
      · have hrk : ¬r.inner.public_key = k := fun h => her (hek.trans h.symm)
        simp only [List.map_cons, hmap]
        rw [List.find?_cons_of_pos _ (by simp [hek]),
          List.find?_cons_of_pos _ (by simp [hek]), if_neg hrk]
      · simp only [List.map_cons, hmap]
        rw [List.find?_cons_of_neg _ (by simp [hek]),
          List.find?_cons_of_neg _ (by simp [hek]), ih]

theorem node_by_key_replace_record (db : NeighborhoodDatabase) (r : NodeRecord)
    (k : PublicKey) :
    (db.replace_record r).node_by_key k =
      if r.inner.public_key = k then (db.node_by_key k).map (fun _ => r)
      else db.node_by_key k := by
  simp only [NeighborhoodDatabase.node_by_key, NeighborhoodDatabase.replace_record]
  exact find?_replace_list db.records r k

/-- What `add_or_replace` does to a single-key view of the store. -/
theorem node_by_key_add_or_replace (db : NeighborhoodDatabase) (r : NodeRecord)
    (k : PublicKey) :
    (add_or_replace db r).node_by_key k =
      if r.inner.public_key = k then
        match db.node_by_key k with
        | none => some r
        | some e =>
          if r.inner.version > e.inner.version ∧ verify r = true then some r else some e
      else db.node_by_key k := by
  unfold add_or_replace
  cases hfind : db.node_by_key r.inner.public_key with
  | none =>
    by_cases hrk : r.inner.public_key = k
    · subst hrk
      simp only [NeighborhoodDatabase.node_by_key] at hfind ⊢
      rw [List.find?_append, hfind]
      simp
    · simp only [NeighborhoodDatabase.node_by_key] at hfind ⊢
      rw [List.find?_append]
      have : [r].find? (fun e => e.inner.public_key == k) = none := by simp [hrk]
      rw [this, if_neg hrk]
      cases db.records.find? (fun e => e.inner.public_key == k) <;> rfl
  | some existing =>
    show (if r.inner.version > existing.inner.version ∧ verify r = true then
        db.replace_record r else db).node_by_key k = _
    by_cases hcond : r.inner.version > existing.inner.version ∧ verify r = true
    · rw [if_pos hcond, node_by_key_replace_record]
      by_cases hrk : r.inner.public_key = k
      · subst hrk
        rw [hfind, if_pos rfl, if_pos rfl]
        simp [hcond]
      · rw [if_neg hrk, if_neg hrk]
    · rw [if_neg hcond]
      by_cases hrk : r.inner.public_key = k
      · subst hrk
        rw [hfind, if_pos rfl]
        simp [hcond]
      · rw [if_neg hrk]

@[simp]
theorem toNodeRecord_inner (g : GossipRecord) : g.toNodeRecord.inner = g.inner := rfl

@[simp]
theorem verify_toNodeRecord (g : GossipRecord) : verify g.toNodeRecord = verify_wire g := rfl

/-- The effect of one gossip record on the single-key view of the store
during a merge. -/
def merge_step (k : PublicKey) (cur : Option NodeRecord) (g : GossipRecord) :
    Option NodeRecord :=
  if verify_wire g = true ∧ g.inner.public_key = k then
    match cur with
    | none => some g.toNodeRecord
    | some e =>
      if g.inner.version > e.inner.version then some g.toNodeRecord else some e
  else cur

/-- `accept` acts per key as a left fold of `merge_step`. -/
theorem node_by_key_accept (gossip : Gossip) (db : NeighborhoodDatabase)
    (k : PublicKey) :
    (accept db gossip).node_by_key k = gossip.foldl (merge_step k) (db.node_by_key k) := by
  induction gossip generalizing db with
  | nil => rfl
  | cons g gossip ih =>
    show (accept (if verify_wire g = true then add_or_replace db g.toNodeRecord else db)
        gossip).node_by_key k = _
    rw [ih]
    show _ = gossip.foldl (merge_step k) (merge_step k (db.node_by_key k) g)
    congr 1
    by_cases hv : verify_wire g = true
    · rw [if_pos hv, node_by_key_add_or_replace]
      unfold merge_step
      by_cases hk : g.inner.public_key = k
      · rw [if_pos (show g.toNodeRecord.inner.public_key = k from hk),
          if_pos ⟨hv, hk⟩]
        cases db.node_by_key k with
        | none => rfl
        | some e => simp [hv]
      · rw [if_neg (show ¬g.toNodeRecord.inner.public_key = k from hk),
          if_neg (fun h => hk h.2)]
    · rw [if_neg hv]
      unfold merge_step
      rw [if_neg (fun h => hv h.1)]

/-- Version-keeping combination of two single-key views: the right view
displaces the left only with a strictly greater version. -/
def merge_opt (c b : Option NodeRecord) : Option NodeRecord :=
  match c, b with
  | c, none => c
  | none, some y => some y
  | some e, some y => if y.inner.version > e.inner.version then some y else some e

theorem merge_opt_none_right (c : Option NodeRecord) : merge_opt c none = c := by
  cases c <;> rfl

theorem merge_opt_none_left (b : Option NodeRecord) : merge_opt none b = b := by
  cases b <;> rfl

theorem merge_step_skip (k : PublicKey) (c : Option NodeRecord) (g : GossipRecord)
    (h : ¬(verify_wire g = true ∧ g.inner.public_key = k)) : merge_step k c g = c := by
  unfold merge_step
  rw [if_neg h]

theorem merge_step_hit_none (k : PublicKey) (g : GossipRecord)
    (h : verify_wire g = true ∧ g.inner.public_key = k) :
    merge_step k none g = some g.toNodeRecord := by
  unfold merge_step
  rw [if_pos h]

theorem merge_step_hit_some (k : PublicKey) (e : NodeRecord) (g : GossipRecord)
    (h : verify_wire g = true ∧ g.inner.public_key = k) :
    merge_step k (some e) g =
      if g.inner.version > e.inner.version then some g.toNodeRecord else some e := by
  unfold merge_step
  rw [if_pos h]

theorem merge_step_merge_opt (k : PublicKey) (c : Option NodeRecord) (g : GossipRecord)
    (b : Option NodeRecord) :
    merge_opt (merge_step k c g) b = merge_opt c (merge_opt (merge_step k none g) b) := by
  by_cases hg : verify_wire g = true ∧ g.inner.public_key = k
  · rw [merge_step_hit_none k g hg]
    cases c with
    | none => rw [merge_step_hit_none k g hg, merge_opt_none_left]
    | some e =>
      rw [merge_step_hit_some k e g hg]
      cases b with
      | none =>
        rw [merge_opt_none_right, merge_opt_none_right]
        by_cases h1 : g.inner.version > e.inner.version <;>
          simp [merge_opt, h1]
      | some y =>
        by_cases h1 : g.inner.version > e.inner.version <;>
          by_cases h2 : y.inner.version > g.inner.version <;>
            by_cases h3 : y.inner.version > e.inner.version <;>
              simp [merge_opt, h1, h2, h3] <;> (exfalso; omega)
  · rw [merge_step_skip k c g hg, merge_step_skip k none g hg, merge_opt_none_left]

theorem foldl_merge_step_eq (k : PublicKey) (L : Gossip) (c : Option NodeRecord) :
    L.foldl (merge_step k) c = merge_opt c (L.foldl (merge_step k) none) := by
  induction L generalizing c with
  | nil => rw [List.foldl_nil, List.foldl_nil, merge_opt_none_right]
  | cons g L ih =>
    rw [List.foldl_cons, List.foldl_cons, ih (merge_step k c g),
      ih (merge_step k none g), merge_step_merge_opt]

theorem merge_step_mono (k : PublicKey) (e : NodeRecord) (g : GossipRecord) :
    ∃ e2, merge_step k (some e) g = some e2 ∧ e.inner.version ≤ e2.inner.version := by
  by_cases hg : verify_wire g = true ∧ g.inner.public_key = k
  · rw [merge_step_hit_some k e g hg]
    by_cases hgt : g.inner.version > e.inner.version
    · exact ⟨g.toNodeRecord, by rw [if_pos hgt], by simp; omega⟩
    · exact ⟨e, by rw [if_neg hgt], le_refl _⟩
  · exact ⟨e, by rw [merge_step_skip k _ g hg], le_refl _⟩

theorem foldl_merge_step_mono (k : PublicKey) (L : Gossip) (e : NodeRecord) :
    ∃ e2, L.foldl (merge_step k) (some e) = some e2 ∧
      e.inner.version ≤ e2.inner.version := by
  induction L generalizing e with
  | nil => exact ⟨e, rfl, le_refl _⟩
  | cons g L ih =>
    obtain ⟨e1, he1, hv1⟩ := merge_step_mono k e g
    obtain ⟨e2, he2, hv2⟩ := ih e1
    exact ⟨e2, by rw [List.foldl_cons, he1, he2], le_trans hv1 hv2⟩

theorem foldl_merge_step_reaches (k : PublicKey) (L : Gossip) (c : Option NodeRecord)
    (g : GossipRecord) (hmem : g ∈ L) (hv : verify_wire g = true)
    (hk : g.inner.public_key = k) :
    ∃ e2, L.foldl (merge_step k) c = some e2 ∧ g.inner.version ≤ e2.inner.version := by
  induction L generalizing c with
  | nil => cases hmem
  | cons h L ih =>
    rcases List.mem_cons.mp hmem with heq | hmem2
    · subst heq
      have hstep : ∃ e1, merge_step k c g = some e1 ∧ g.inner.version ≤ e1.inner.version := by
        cases c with
        | none => exact ⟨g.toNodeRecord, merge_step_hit_none k g ⟨hv, hk⟩, le_refl _⟩
        | some e =>
          rw [merge_step_hit_some k e g ⟨hv, hk⟩]
          by_cases hgt : g.inner.version > e.inner.version
          · exact ⟨g.toNodeRecord, by rw [if_pos hgt], le_refl _⟩
          · exact ⟨e, by rw [if_neg hgt], by omega⟩
      obtain ⟨e1, he1, hv1⟩ := hstep
      obtain ⟨e2, he2, hv2⟩ := foldl_merge_step_mono k L e1
      exact ⟨e2, by rw [List.foldl_cons, he1, he2], le_trans hv1 hv2⟩
    · exact ih (merge_step k c h) hmem2

theorem foldl_merge_step_invalid (k : PublicKey) (L : Gossip) (c : Option NodeRecord)
    (r : NodeRecord) (hr : verify r = false)
    (h : L.foldl (merge_step k) c = some r) : c = some r := by
  induction L generalizing c with
  | nil => exact h
  | cons g L ih =>
    rw [List.foldl_cons] at h
    have hstep : merge_step k c g = some r := ih (merge_step k c g) h
    by_cases hg : verify_wire g = true ∧ g.inner.public_key = k
    · cases c with
      | none =>
        exfalso
        rw [merge_step_hit_none k g hg] at hstep
        have : g.toNodeRecord = r := by injection hstep
        rw [← this, verify_toNodeRecord, hg.1] at hr
        cases hr
      | some e =>
        rw [merge_step_hit_some k e g hg] at hstep
        by_cases hgt : g.inner.version > e.inner.version
        · exfalso
          rw [if_pos hgt] at hstep
          have : g.toNodeRecord = r := by injection hstep
          rw [← this, verify_toNodeRecord, hg.1] at hr
          cases hr
        · rw [if_neg hgt] at hstep
          exact hstep
    · rw [merge_step_skip k c g hg] at hstep
      exact hstep

theorem foldl_merge_step_provenance (k : PublicKey) (L : Gossip) (c : Option NodeRecord)
    (r : NodeRecord) (h : L.foldl (merge_step k) c = some r) :
    c = some r ∨
      ∃ g ∈ L, verify_wire g = true ∧ g.inner.public_key = k ∧ r = g.toNodeRecord ∧
        ∀ e, c = some e → e.inner.version < r.inner.version := by
  induction L generalizing c with
  | nil => exact Or.inl h
  | cons g L ih =>
    rw [List.foldl_cons] at h
    rcases ih (merge_step k c g) h with hstep | ⟨g2, hg2, hv2, hk2, hr2, hlt2⟩
    · by_cases hg : verify_wire g = true ∧ g.inner.public_key = k
      · cases c with
        | none =>
          rw [merge_step_hit_none k g hg] at hstep
          have heq : g.toNodeRecord = r := by injection hstep
          exact Or.inr ⟨g, List.mem_cons_self g L, hg.1, hg.2, heq.symm,
            fun e he => by cases he⟩
        | some e =>
          rw [merge_step_hit_some k e g hg] at hstep
          by_cases hgt : g.inner.version > e.inner.version
          · rw [if_pos hgt] at hstep
            have hre : g.toNodeRecord = r := by injection hstep
            refine Or.inr ⟨g, List.mem_cons_self g L, hg.1, hg.2, hre.symm,
              fun e2 he2 => ?_⟩
            have he2e : e = e2 := by injection he2
            subst he2e
            rw [← hre]
            simpa using hgt
          · rw [if_neg hgt] at hstep
            exact Or.inl hstep
      · rw [merge_step_skip k c g hg] at hstep
        exact Or.inl hstep
    · refine Or.inr ⟨g2, List.mem_cons_of_mem g hg2, hv2, hk2, hr2, fun e he => ?_⟩
      subst he
      obtain ⟨e1, he1, hv1⟩ := merge_step_mono k e g
      exact lt_of_le_of_lt hv1 (hlt2 e1 he1)

theorem foldl_fixed {α : Type} {β : Type} (f : α → β → α) (S : α) (L : List β)
    (h : ∀ x ∈ L, f S x = S) : L.foldl f S = S := by
  induction L with
  | nil => rfl
  | cons x L ih =>
    rw [List.foldl_cons, h x (List.mem_cons_self x L)]
    exact ih (fun y hy => h y (List.mem_cons_of_mem x hy))

theorem add_or_replace_noop (db : NeighborhoodDatabase) (r e : NodeRecord)
    (hfind : db.node_by_key r.inner.public_key = some e)
    (hle : ¬(r.inner.version > e.inner.version ∧ verify r = true)) :
    add_or_replace db r = db := by
  unfold add_or_replace
  rw [hfind]
  exact if_neg hle

/-- Accepting the same gossip payload a second time leaves the store
unchanged (structurally). -/
theorem accept_accept_self (db : NeighborhoodDatabase) (G : Gossip) :
    accept (accept db G) G = accept db G := by
  show G.foldl _ (accept db G) = accept db G
  apply foldl_fixed
  intro g hg
  by_cases hv : verify_wire g = true
  · rw [if_pos hv]
    obtain ⟨e2, he2, hver⟩ := foldl_merge_step_reaches g.inner.public_key G
      (db.node_by_key g.inner.public_key) g hg hv rfl
    have hfind : (accept db G).node_by_key g.toNodeRecord.inner.public_key = some e2 := by
      rw [toNodeRecord_inner, node_by_key_accept]
      exact he2
    exact add_or_replace_noop (accept db G) g.toNodeRecord e2 hfind
      (fun hc => absurd hc.1 (by simp; omega))
  · rw [if_neg hv]

theorem merge_opt_assoc (c b1 b2 : Option NodeRecord) :
    merge_opt (merge_opt c b1) b2 = merge_opt c (merge_opt b1 b2) := by
  cases c with
  | none => rw [merge_opt_none_left, merge_opt_none_left]
  | some e =>
    cases b1 with
    | none => rw [merge_opt_none_right, merge_opt_none_left]
    | some x =>
      cases b2 with
      | none => rw [merge_opt_none_right, merge_opt_none_right]
      | some y =>
        by_cases h1 : x.inner.version > e.inner.version <;>
          by_cases h2 : y.inner.version > x.inner.version <;>
            by_cases h3 : y.inner.version > e.inner.version <;>
              simp [merge_opt, h1, h2, h3] <;> (exfalso; omega)

theorem merge_opt_comm (b1 b2 : Option NodeRecord)
    (h : ∀ x y, b1 = some x → b2 = some y →
      x.inner.version = y.inner.version → x = y) :
    merge_opt b1 b2 = merge_opt b2 b1 := by
  cases b1 with
  | none => rw [merge_opt_none_left, merge_opt_none_right]
  | some x =>
    cases b2 with
    | none => rw [merge_opt_none_left, merge_opt_none_right]
    | some y =>
      by_cases h1 : y.inner.version > x.inner.version
      · by_cases h2 : x.inner.version > y.inner.version
        · exfalso
          omega
        · simp [merge_opt, h1, h2]
      · by_cases h2 : x.inner.version > y.inner.version
        · simp [merge_opt, h1, h2]
        · have hxy : x = y := h x y rfl rfl (by omega)
          rw [hxy]

/-- Per-key commutativity of merging two payloads, provided no
signature-valid record of one payload clashes with a same-key,
same-version but different record of the other. -/
theorem accept_comm (db : NeighborhoodDatabase) (G1 G2 : Gossip)
    (hcompat : ∀ g1 ∈ G1, ∀ g2 ∈ G2, verify_wire g1 = true → verify_wire g2 = true →
      g1.inner.public_key = g2.inner.public_key →
      g1.inner.version = g2.inner.version → g1 = g2)
    (k : PublicKey) :
    (accept (accept db G1) G2).node_by_key k =
      (accept (accept db G2) G1).node_by_key k := by
  rw [node_by_key_accept, node_by_key_accept, node_by_key_accept, node_by_key_accept,
    foldl_merge_step_eq k G2, foldl_merge_step_eq k G1 (db.node_by_key k),
    foldl_merge_step_eq k G1 (G2.foldl (merge_step k) (db.node_by_key k)),
    foldl_merge_step_eq k G2 (db.node_by_key k),
    merge_opt_assoc, merge_opt_assoc]
  congr 1
  apply merge_opt_comm
  intro x y hx hy hver
  rcases foldl_merge_step_provenance k G1 none x hx with habs | ⟨g1, hg1, hv1, hk1, hx1, _⟩
  · cases habs
  rcases foldl_merge_step_provenance k G2 none y hy with habs | ⟨g2, hg2, hv2, hk2, hy2, _⟩
  · cases habs
  have hkey : g1.inner.public_key = g2.inner.public_key := hk1.trans hk2.symm
  have hv : g1.inner.version = g2.inner.version := by
    have hx' : x.inner.version = g1.inner.version := by rw [hx1]; rfl
    have hy' : y.inner.version = g2.inner.version := by rw [hy2]; rfl
    omega
  have : g1 = g2 := hcompat g1 hg1 g2 hg2 hv1 hv2 hkey hv
  rw [hx1, hy2, this]

/-- Any record present after `add_or_replace` was present before or is
the applied record itself. -/
theorem mem_records_add_or_replace (db : NeighborhoodDatabase) (r r' : NodeRecord)
    (h : r' ∈ (add_or_replace db r).records) : r' ∈ db.records ∨ r' = r := by
  unfold add_or_replace at h
  cases hfind : db.node_by_key r.inner.public_key with
  | none =>
    rw [hfind] at h
    rcases List.mem_append.mp h with hl | hr
    · exact Or.inl hl
    · exact Or.inr (List.mem_singleton.mp hr)
  | some existing =>
    rw [hfind] at h
    have h2 : r' ∈ (if r.inner.version > existing.inner.version ∧ verify r = true then
        db.replace_record r else db).records := h
    by_cases hcond : r.inner.version > existing.inner.version ∧ verify r = true
    · rw [if_pos hcond] at h2
      rcases List.mem_map.mp h2 with ⟨e, he, himg⟩
      by_cases hek : (e.inner.public_key == r.inner.public_key) = true
      · rw [if_pos hek] at himg
        exact Or.inr himg.symm
      · rw [if_neg hek] at himg
        exact Or.inl (himg ▸ he)
    · rw [if_neg hcond] at h2
      exact Or.inl h2

/-- Any record present after a merge was present before or arrived
verbatim in the payload. -/
theorem mem_records_accept (db : NeighborhoodDatabase) (G : Gossip) (r' : NodeRecord)
    (h : r' ∈ (accept db G).records) :
    r' ∈ db.records ∨ ∃ g ∈ G, r' = g.toNodeRecord := by
  induction G generalizing db with
  | nil => exact Or.inl h
  | cons g G ih =>
    have h' : r' ∈ (accept (if verify_wire g = true then
        add_or_replace db g.toNodeRecord else db) G).records := h
    rcases ih _ h' with hbase | ⟨g2, hg2, hr2⟩
    · by_cases hv : verify_wire g = true
      · rw [if_pos hv] at hbase
        rcases mem_records_add_or_replace db g.toNodeRecord r' hbase with hd | he
        · exact Or.inl hd
        · exact Or.inr ⟨g, List.mem_cons_self g G, he⟩
      · rw [if_neg hv] at hbase
        exact Or.inl hbase
    · exact Or.inr ⟨g2, List.mem_cons_of_mem g hg2, hr2⟩

/-! ### Concrete test fixtures -/

/-- A concrete inner payload. -/
def mk_inner (k v : Nat) (ns : List PublicKey) : NodeRecordInner :=
  { public_key := k, version := v, neighbors := ns.toFinset }

/-- A concrete signature-valid node record. -/
def mk_valid_record (k v : Nat) (ns : List PublicKey) : NodeRecord :=
  { inner := mk_inner k v ns
    metadata := { desirable := true, node_addr_opt := none }
    signed_gossip := mk_inner k v ns
    signature := some (mk_inner k v ns) }

/-- A concrete record whose signature does not verify. -/
def mk_forged_record (k v : Nat) (ns : List PublicKey) : NodeRecord :=
  { inner := mk_inner k v ns
    metadata := { desirable := true, node_addr_opt := none }
    signed_gossip := mk_inner k v ns
    signature := none }

/-- A concrete signature-valid wire record. -/
def mk_valid_wire (k v : Nat) (ns : List PublicKey) : GossipRecord :=
  { inner := mk_inner k v ns, signature := some (mk_inner k v ns), node_addr_opt := none }

/-- A concrete wire record whose signature does not verify. -/
def mk_forged_wire (k v : Nat) (ns : List PublicKey) : GossipRecord :=
  { inner := mk_inner k v ns, signature := none, node_addr_opt := none }

/-! ### C1 — monotonic merge via `add_or_replace` -/

theorem node_by_key_aor_fresh (db : NeighborhoodDatabase) (R : NodeRecord)
    (hv : verify R = true)
    (hall : ∀ e, db.node_by_key R.inner.public_key = some e →
      e.inner.version < R.inner.version) :
    (add_or_replace db R).node_by_key R.inner.public_key = some R := by
  rw [node_by_key_add_or_replace, if_pos rfl]
  cases hdb : db.node_by_key R.inner.public_key with
  | none => rfl
  | some e => exact if_pos ⟨hall e hdb, hv⟩

/-- C1 (amended): two signature-valid records R1, R2 for the same key with
`R1.version < R2.version`, applied via `add_or_replace` in either order to
a store whose existing record for that key (if any) has version below
`R2.version`, leave the store holding a record equal to R2 for that key. -/
theorem c1_monotonic_merge (db : NeighborhoodDatabase) (R1 R2 : NodeRecord)
    (hv1 : verify R1 = true) (hv2 : verify R2 = true)
    (hkey : R1.inner.public_key = R2.inner.public_key)
    (hlt : R1.inner.version < R2.inner.version)
    (hex : ∀ e, db.node_by_key R2.inner.public_key = some e →
      e.inner.version < R2.inner.version) :
    (add_or_replace (add_or_replace db R1) R2).node_by_key R2.inner.public_key
        = some R2 ∧
      (add_or_replace (add_or_replace db R2) R1).node_by_key R2.inner.public_key
        = some R2 := by
  constructor
  · have hex1 : ∀ e, (add_or_replace db R1).node_by_key R2.inner.public_key = some e →
        e.inner.version < R2.inner.version := by
      intro e he
      rw [node_by_key_add_or_replace, if_pos hkey] at he
      cases hdb : db.node_by_key R2.inner.public_key with
      | none =>
        rw [hdb] at he
        have h1 : R1 = e := by injection he
        rw [← h1]
        exact hlt
      | some e0 =>
        rw [hdb] at he
        have he2 : (if R1.inner.version > e0.inner.version ∧ verify R1 = true then some R1
            else some e0) = some e := he
        have he0 := hex e0 hdb
        by_cases hc : R1.inner.version > e0.inner.version ∧ verify R1 = true
        · rw [if_pos hc] at he2
          have h1 : R1 = e := by injection he2
          rw [← h1]
          exact hlt
        · rw [if_neg hc] at he2
          have h1 : e0 = e := by injection he2
          rw [← h1]
          exact he0
    exact node_by_key_aor_fresh (add_or_replace db R1) R2 hv2 hex1
  · have hB : (add_or_replace db R2).node_by_key R2.inner.public_key = some R2 :=
      node_by_key_aor_fresh db R2 hv2 hex
    rw [node_by_key_add_or_replace, if_pos hkey, hB]
    exact if_neg (fun hc => absurd hc.1 (by omega))

/-- C1 witness: the amended theorem applied at a concrete fresh store. -/
theorem c1_monotonic_merge_witness :
    verify (mk_valid_record 1 1 []) = true ∧
      verify (mk_valid_record 1 2 []) = true ∧
      (mk_valid_record 1 1 []).inner.version < (mk_valid_record 1 2 []).inner.version ∧
      (add_or_replace (add_or_replace ⟨0, []⟩ (mk_valid_record 1 1 []))
          (mk_valid_record 1 2 [])).node_by_key
          (mk_valid_record 1 2 []).inner.public_key = some (mk_valid_record 1 2 []) ∧
      (add_or_replace (add_or_replace ⟨0, []⟩ (mk_valid_record 1 2 []))
          (mk_valid_record 1 1 [])).node_by_key
          (mk_valid_record 1 2 []).inner.public_key = some (mk_valid_record 1 2 []) := by
  refine ⟨by decide, by decide, by decide, ?_⟩
  have h := c1_monotonic_merge ⟨0, []⟩ (mk_valid_record 1 1 []) (mk_valid_record 1 2 [])
    (by decide) (by decide) (by decide) (by decide) (fun e he => nomatch he)
  exact h

/-- C1 counterexample: against a store already holding a newer record for
the key, applying R1 and R2 (both signature-valid, `R1.version <
R2.version`) in either order leaves the old record, not R2 — the claim
fails without a freshness condition on the store. -/
theorem c1_counterexample :
    verify (mk_valid_record 1 3 []) = true ∧
      verify (mk_valid_record 1 5 []) = true ∧
      (mk_valid_record 1 3 []).inner.version < (mk_valid_record 1 5 []).inner.version ∧
      (add_or_replace (add_or_replace ⟨0, [mk_valid_record 1 10 []]⟩
          (mk_valid_record 1 3 [])) (mk_valid_record 1 5 [])).node_by_key 1
        = some (mk_valid_record 1 10 []) ∧
      (add_or_replace (add_or_replace ⟨0, [mk_valid_record 1 10 []]⟩
          (mk_valid_record 1 5 [])) (mk_valid_record 1 3 [])).node_by_key 1
        = some (mk_valid_record 1 10 []) ∧
      mk_valid_record 1 10 [] ≠ mk_valid_record 1 5 [] := by
  decide

/-! ### C2 — forgery rejection -/

/-- C2 (amended): a record whose signature does not verify never replaces
an existing record via `add_or_replace`, and is never brought into the
store by the gossip-accept path (if it is found in the store after a
merge, it was there before); the insert-if-absent path of a direct
`add_or_replace` call, however, does not verify. -/
theorem c2_forgery_rejection (r : NodeRecord) (db : NeighborhoodDatabase)
    (hinv : verify r = false) :
    (∀ e, db.node_by_key r.inner.public_key = some e → add_or_replace db r = db) ∧
      (∀ G k, (accept db G).node_by_key k = some r → db.node_by_key k = some r) := by
  constructor
  · intro e he
    exact add_or_replace_noop db r e he (fun hc => by simp [hc.2] at hinv)
  · intro G k h
    rw [node_by_key_accept] at h
    exact foldl_merge_step_invalid k G _ r hinv h

/-- C2 witness: a forged record does not replace a concrete held record. -/
theorem c2_forgery_rejection_witness :
    verify (mk_forged_record 1 99 []) = false ∧
      add_or_replace ⟨0, [mk_valid_record 1 1 []]⟩ (mk_forged_record 1 99 [])
        = ⟨0, [mk_valid_record 1 1 []]⟩ :=
  ⟨by decide,
    (c2_forgery_rejection (mk_forged_record 1 99 []) ⟨0, [mk_valid_record 1 1 []]⟩
      (by decide)).1 (mk_valid_record 1 1 []) (by decide)⟩

/-- C2 counterexample: called directly on a store with no record for the
key, `add_or_replace` inserts without verifying, so a forged record with
an arbitrarily high claimed version IS stored — the claim's
"directly via add_or_replace ... never stores it" fails on the
insert-if-absent path. -/
theorem c2_counterexample :
    verify (mk_forged_record 1 99 []) = false ∧
      (add_or_replace ⟨0, []⟩ (mk_forged_record 1 99 [])).node_by_key 1
        = some (mk_forged_record 1 99 []) := by
  decide

/-! ### C4 — idempotent and commutative merge -/

/-- C4 (amended): accepting the same payload twice equals accepting it
once; and accepting two payloads in either order yields stores holding
the same record for every key, provided no signature-valid record of one
payload shares key and version with a different signature-valid record of
the other. -/
theorem c4_idempotent_commutative (db : NeighborhoodDatabase) (G G1 G2 : Gossip)
    (hvalid : ∀ g ∈ G, verify_wire g = true)
    (hcompat : ∀ g1 ∈ G1, ∀ g2 ∈ G2, verify_wire g1 = true → verify_wire g2 = true →
      g1.inner.public_key = g2.inner.public_key →
      g1.inner.version = g2.inner.version → g1 = g2) :
    accept (accept db G) G = accept db G ∧
      ∀ k, (accept (accept db G1) G2).node_by_key k
        = (accept (accept db G2) G1).node_by_key k :=
  ⟨accept_accept_self db G, accept_comm db G1 G2 hcompat⟩

/-- C4 witness: the amended theorem at concrete all-valid payloads with
disjoint keys. -/
theorem c4_idempotent_commutative_witness :
    (∀ g ∈ [mk_valid_wire 1 1 []], verify_wire g = true) ∧
      (∀ g1 ∈ [mk_valid_wire 2 1 []], ∀ g2 ∈ [mk_valid_wire 3 1 []],
        verify_wire g1 = true → verify_wire g2 = true →
        g1.inner.public_key = g2.inner.public_key →
        g1.inner.version = g2.inner.version → g1 = g2) ∧
      (accept (accept ⟨0, []⟩ [mk_valid_wire 1 1 []]) [mk_valid_wire 1 1 []]
          = accept ⟨0, []⟩ [mk_valid_wire 1 1 []] ∧
        ∀ k, (accept (accept ⟨0, []⟩ [mk_valid_wire 2 1 []])
            [mk_valid_wire 3 1 []]).node_by_key k
          = (accept (accept ⟨0, []⟩ [mk_valid_wire 3 1 []])
            [mk_valid_wire 2 1 []]).node_by_key k) :=
  ⟨by decide, by decide,
    c4_idempotent_commutative ⟨0, []⟩ [mk_valid_wire 1 1 []] [mk_valid_wire 2 1 []]
      [mk_valid_wire 3 1 []] (by decide) (by decide)⟩

/-- C4 counterexample: two all-valid payloads carrying different records
for the same key with the same version do not commute — the store ends up
holding one record or the other depending on the order, so "accepting G1
then G2 yields the same store state as G2 then G1" fails as stated. -/
theorem c4_counterexample :
    (∀ g ∈ [mk_valid_wire 1 5 []], verify_wire g = true) ∧
      (∀ g ∈ [mk_valid_wire 1 5 [2]], verify_wire g = true) ∧
      (accept (accept ⟨0, []⟩ [mk_valid_wire 1 5 []])
          [mk_valid_wire 1 5 [2]]).node_by_key 1
        = some (mk_valid_wire 1 5 []).toNodeRecord ∧
      (accept (accept ⟨0, []⟩ [mk_valid_wire 1 5 [2]])
          [mk_valid_wire 1 5 []]).node_by_key 1
        = some (mk_valid_wire 1 5 [2]).toNodeRecord ∧
      (mk_valid_wire 1 5 []).toNodeRecord ≠ (mk_valid_wire 1 5 [2]).toNodeRecord := by
  decide

/-! ### C7 — bad-record isolation -/

/-- C7: merging a payload is exactly merging its signature-valid records
in order — each failing record is dropped without aborting or otherwise
affecting the processing of the remaining records. -/
theorem c7_bad_record_isolation (db : NeighborhoodDatabase) (G : Gossip) :
    accept db G = accept db (G.filter verify_wire) := by
  induction G generalizing db with
  | nil => rfl
  | cons g G ih =>
    by_cases hv : verify_wire g = true
    · show accept (if verify_wire g = true then add_or_replace db g.toNodeRecord else db) G
        = _
      rw [if_pos hv, List.filter_cons_of_pos hv]
      show _ = accept (if verify_wire g = true then add_or_replace db g.toNodeRecord
        else db) (G.filter verify_wire)
      rw [if_pos hv]
      exact ih (add_or_replace db g.toNodeRecord)
    · show accept (if verify_wire g = true then add_or_replace db g.toNodeRecord else db) G
        = _
      rw [if_neg hv, List.filter_cons_of_neg (by simpa using hv)]
      exact ih db

/-! ### C3 — address redaction in `produce` -/

/-- C3 (amended): a record in `produce(store, X)` carries a
`network_address` only if its subject is a full-neighbor of the local
node, or is X itself, or is already mutually known with X. -/
theorem c3_address_redaction (db : NeighborhoodDatabase) (X : PublicKey)
    (g : GossipRecord) (hg : g ∈ produce db X) (haddr : g.node_addr_opt ≠ none) :
    has_full_neighbor db db.root_key g.inner.public_key = true ∨
      g.inner.public_key = X ∨
      mutually_known db g.inner.public_key X = true := by
  rcases List.mem_map.mp hg with ⟨r, hr, himg⟩
  have hkey : g.inner.public_key = r.inner.public_key := by rw [← himg]
  by_cases hrev : reveal_address db X r = true
  · unfold reveal_address at hrev
    simp only [Bool.or_eq_true, beq_iff_eq] at hrev
    rcases hrev with (hfn | hX) | hmk
    · exact Or.inl (by rw [hkey]; exact hfn)
    · exact Or.inr (Or.inl (by rw [hkey]; exact hX))
    · exact Or.inr (Or.inr (by rw [hkey]; exact hmk))
  · exfalso
    apply haddr
    rw [← himg]
    simp [hrev]

/-- A concrete record with an explicit address: used by the `produce`
fixtures. -/
def mk_valid_record_addr (k v : Nat) (ns : List PublicKey) (addr : Option NodeAddr) :
    NodeRecord :=
  { inner := mk_inner k v ns
    metadata := { desirable := true, node_addr_opt := addr }
    signed_gossip := mk_inner k v ns
    signature := some (mk_inner k v ns) }

/-- A store whose root (key 0) has no neighbors, while the nodes with
keys 1 and 2 mutually list each other; the node with key 2 holds an
address. -/
def c3_db : NeighborhoodDatabase :=
  { root_key := 0
    records := [mk_valid_record 0 1 [],
      mk_valid_record_addr 1 1 [2] (some 10),
      mk_valid_record_addr 2 1 [1] (some 42)] }

/-- The wire record that `produce c3_db 1` emits for subject 2. -/
def c3_g : GossipRecord :=
  { inner := mk_inner 2 1 [1], signature := some (mk_inner 2 1 [1]),
    node_addr_opt := some 42 }

/-- C3 witness: the amended theorem at the concrete store. -/
theorem c3_address_redaction_witness :
    c3_g ∈ produce c3_db 1 ∧ c3_g.node_addr_opt ≠ none ∧
      (has_full_neighbor c3_db c3_db.root_key c3_g.inner.public_key = true ∨
        c3_g.inner.public_key = 1 ∨
        mutually_known c3_db c3_g.inner.public_key 1 = true) :=
  ⟨by decide, by decide, c3_address_redaction c3_db 1 c3_g (by decide) (by decide)⟩

/-- C3 counterexample: `produce c3_db 1` discloses the address of subject
2 although 2 is neither a full-neighbor of the local node nor the
recipient 1 itself — the mutually-known disclosure rule of the producer
violates the claim as stated. -/
theorem c3_counterexample :
    (produce c3_db 1).map (fun g => (g.inner.public_key, g.node_addr_opt))
        = [(0, none), (1, some 10), (2, some 42)] ∧
      has_full_neighbor c3_db c3_db.root_key 2 = false ∧
      (2 : PublicKey) ≠ 1 := by
  decide

/-! ### C5 — local metadata is never serialized -/

/-- Rewrite every record's desirability flag in a store. -/
def set_desirables (f : NodeRecord → Bool) (db : NeighborhoodDatabase) :
    NeighborhoodDatabase :=
  { db with records :=
      db.records.map (fun r => { r with metadata := { r.metadata with desirable := f r } }) }

theorem node_by_key_set_desirables (f : NodeRecord → Bool) (db : NeighborhoodDatabase)
    (k : PublicKey) :
    (set_desirables f db).node_by_key k =
      (db.node_by_key k).map
        (fun r => { r with metadata := { r.metadata with desirable := f r } }) := by
  simp only [NeighborhoodDatabase.node_by_key, set_desirables]
  rw [List.find?_map]
  rfl

theorem lists_as_neighbor_set_desirables (f : NodeRecord → Bool)
    (db : NeighborhoodDatabase) (a b : PublicKey) :
    lists_as_neighbor (set_desirables f db) a b = lists_as_neighbor db a b := by
  unfold lists_as_neighbor
  rw [node_by_key_set_desirables]
  cases db.node_by_key a <;> rfl

theorem reveal_address_set_desirables (f : NodeRecord → Bool)
    (db : NeighborhoodDatabase) (X : PublicKey) (r : NodeRecord) :
    reveal_address (set_desirables f db) X r = reveal_address db X r := by
  unfold reveal_address has_full_neighbor mutually_known
  simp only [lists_as_neighbor_set_desirables]
  rfl

/-- C5: the gossip a store produces is unchanged under arbitrary rewrites
of the local-only `desirable` flag of every held record — the flag never
appears in (or influences) any serialized gossip payload, whose records
consist only of the inner payload, the signature and the optionally
disclosed address. -/
theorem c5_metadata_never_serialized (db : NeighborhoodDatabase) (X : PublicKey)
    (f : NodeRecord → Bool) :
    produce (set_desirables f db) X = produce db X := by
  unfold produce
  have hrec : (set_desirables f db).records =
      db.records.map (fun r => { r with metadata := { r.metadata with desirable := f r } }) :=
    rfl
  rw [hrec, List.map_map]
  refine List.map_congr_left (fun r hr => ?_)
  simp only [Function.comp_apply]
  rw [reveal_address_set_desirables]
  rfl

/-! ### C6 — mutation paths of stored records -/

/-- C6 (amended): in the protocol core, a stored record is never mutated
by a merge — after `accept`, the record held for a key is either exactly
the record held before, or a verbatim, signature-valid copy from the
gossip payload with strictly higher version than whatever was held. (The
test harness, by contrast, does re-sign records of keys it does not own —
see the counterexample.) -/
theorem c6_merge_only_replaces (db : NeighborhoodDatabase) (G : Gossip)
    (k : PublicKey) (r2 : NodeRecord)
    (h : (accept db G).node_by_key k = some r2) :
    db.node_by_key k = some r2 ∨
      ∃ g ∈ G, verify_wire g = true ∧ r2 = g.toNodeRecord ∧
        ∀ e, db.node_by_key k = some e → e.inner.version < r2.inner.version := by
  rw [node_by_key_accept] at h
  rcases foldl_merge_step_provenance k G _ r2 h with h1 | ⟨g, hg, hv, hk, hr, hlt⟩
  · exact Or.inl h1
  · exact Or.inr ⟨g, hg, hv, hr, hlt⟩

/-- C6 witness: the amended theorem at a concrete store and payload. -/
theorem c6_merge_only_replaces_witness :
    (accept ⟨0, [mk_valid_record 1 1 []]⟩ [mk_valid_wire 1 2 []]).node_by_key 1
        = some (mk_valid_wire 1 2 []).toNodeRecord ∧
      (NeighborhoodDatabase.node_by_key ⟨0, [mk_valid_record 1 1 []]⟩ 1
          = some (mk_valid_wire 1 2 []).toNodeRecord ∨
        ∃ g ∈ [mk_valid_wire 1 2 []], verify_wire g = true ∧
          (mk_valid_wire 1 2 []).toNodeRecord = g.toNodeRecord ∧
          ∀ e, NeighborhoodDatabase.node_by_key ⟨0, [mk_valid_record 1 1 []]⟩ 1 = some e →
            e.inner.version < (mk_valid_wire 1 2 []).toNodeRecord.inner.version) :=
  ⟨by decide,
    c6_merge_only_replaces ⟨0, [mk_valid_record 1 1 []]⟩ [mk_valid_wire 1 2 []] 1
      (mk_valid_wire 1 2 []).toNodeRecord (by decide)⟩

/-- C6 counterexample: the harness's `make_modified_db`, acting for the
real node with key 0, emits a record for key 7 whose content was changed
and whose signature is freshly produced (it verifies, and differs from
the owner's original signature) — a component re-signing a record on
behalf of a key it does not own, so the claim fails on this repository's
code. -/
theorem c6_counterexample :
    ((make_modified_db (mk_valid_record 0 1 []) [mk_valid_record 7 1 [0]]).bind
        (fun db => db.node_by_key 7))
        = some ((mk_valid_record 7 1 [0]).set_version 2).resign ∧
      ((mk_valid_record 7 1 [0]).set_version 2).resign.signature
        ≠ (mk_valid_record 7 1 [0]).signature ∧
      verify ((mk_valid_record 7 1 [0]).set_version 2).resign = true ∧
      (mk_valid_record 7 1 [0]).inner.public_key
        ≠ (mk_valid_record 0 1 []).inner.public_key := by
  decide

/-! ### C8 — no record lists itself as a neighbor -/

/-- C8: self-loop freedom is preserved: the record built by `modify_node`
never lists its own key (its neighbor set is the model record's
`half_neighbor_keys`, which by hypothesis avoids the model's own key),
and a merge never introduces a record listing its own key if neither the
store nor the payload contains one. -/
theorem c8_no_self_neighbor (g model : NodeRecord) (m : MockNodeMap)
    (db : NeighborhoodDatabase) (G : Gossip)
    (hkey : g.inner.public_key = model.inner.public_key)
    (hmodel : model.inner.public_key ∉ model.inner.neighbors)
    (hdb : ∀ r ∈ db.records, r.inner.public_key ∉ r.inner.neighbors)
    (hG : ∀ w ∈ G, w.inner.public_key ∉ w.inner.neighbors) :
    (modify_node g model m).inner.public_key ∉ (modify_node g model m).inner.neighbors ∧
      ∀ r ∈ (accept db G).records, r.inner.public_key ∉ r.inner.neighbors := by
  constructor
  · have h1 : (modify_node g model m).inner.public_key = g.inner.public_key := rfl
    have h2 : (modify_node g model m).inner.neighbors = model.inner.neighbors := rfl
    rw [h1, h2, hkey]
    exact hmodel
  · intro r hr
    rcases mem_records_accept db G r hr with hmem | ⟨w, hw, hrw⟩
    · exact hdb r hmem
    · rw [hrw]
      exact hG w hw

/-- C8 witness: the theorem at a concrete harness record, store and
payload. -/
theorem c8_no_self_neighbor_witness :
    (mk_valid_record 7 1 [0]).inner.public_key ∉ (mk_valid_record 7 1 [0]).inner.neighbors ∧
      (∀ r ∈ [mk_valid_record 0 1 [1]], r.inner.public_key ∉ r.inner.neighbors) ∧
      (∀ w ∈ [mk_valid_wire 1 1 [0]], w.inner.public_key ∉ w.inner.neighbors) ∧
      ((modify_node (mk_valid_record 7 1 [0]) (mk_valid_record 7 1 [0])
          (fun _ => none)).inner.public_key
        ∉ (modify_node (mk_valid_record 7 1 [0]) (mk_valid_record 7 1 [0])
          (fun _ => none)).inner.neighbors ∧
      ∀ r ∈ (accept ⟨0, [mk_valid_record 0 1 [1]]⟩ [mk_valid_wire 1 1 [0]]).records,
        r.inner.public_key ∉ r.inner.neighbors) :=
  ⟨by decide, by decide, by decide,
    c8_no_self_neighbor (mk_valid_record 7 1 [0]) (mk_valid_record 7 1 [0])
      (fun _ => none) ⟨0, [mk_valid_record 0 1 [1]]⟩ [mk_valid_wire 1 1 [0]]
      rfl (by decide) (by decide) (by decide)⟩

/-! ### C9 — the node-handle conversion -/

/-- C9: `from_substratum_node_to_node_record` always sets
`metadata.desirable` to `true`, and copies the inner payload, signed
plaintext, signature and address of the handle's
`AccessibleGossipRecord` unmodified. -/
theorem c9_from_substratum_node (agr : AccessibleGossipRecord) :
    (from_substratum_node_to_node_record agr).metadata.desirable = true ∧
      (from_substratum_node_to_node_record agr).inner = agr.inner ∧
      (from_substratum_node_to_node_record agr).signed_gossip = agr.signed_gossip ∧
      (from_substratum_node_to_node_record agr).signature = agr.signature ∧
      (from_substratum_node_to_node_record agr).metadata.node_addr_opt
        = agr.node_addr_opt :=
  ⟨rfl, rfl, rfl, rfl, rfl⟩

/-! ### C10 — every record of the constructed database has version 2 -/

theorem fold_add_node_version_two (nodes : List NodeRecord)
    (acc : Option NeighborhoodDatabase)
    (hacc : ∀ d, acc = some d → ∀ r ∈ d.records, r.inner.version = 2)
    (db : NeighborhoodDatabase)
    (h : nodes.foldl
        (fun a node => a.bind (fun d => add_node d ((node.set_version 2).resign)))
        acc = some db) :
    ∀ r ∈ db.records, r.inner.version = 2 := by
  induction nodes generalizing acc with
  | nil => exact hacc db h
  | cons n nodes ih =>
    rw [List.foldl_cons] at h
    refine ih _ ?_ h
    intro d1 h1
    cases acc with
    | none => cases h1
    | some d =>
      have h2 : add_node d ((n.set_version 2).resign) = some d1 := h1
      unfold add_node at h2
      cases hfind : d.node_by_key ((n.set_version 2).resign).public_key with
      | some e =>
        rw [hfind] at h2
        cases h2
      | none =>
        rw [hfind] at h2
        have hd1 : ({ d with records := d.records ++ [(n.set_version 2).resign] }
            : NeighborhoodDatabase) = d1 := by injection h2
        intro r hr
        rw [← hd1] at hr
        rcases List.mem_append.mp hr with hl | hsing
        · exact hacc d rfl r hl
        · rw [List.mem_singleton.mp hsing]
          rfl

/-- C10: every record of the database returned by the
database-construction pipeline of `construct_neighborhood` — the root
record and every non-root record — has `inner.version = 2`. -/
theorem c10_all_versions_two (agr : AccessibleGossipRecord)
    (models : List NodeRecord) (m : MockNodeMap) (db : NeighborhoodDatabase)
    (h : construct_neighborhood_db agr models m = some db) :
    ∀ r ∈ db.records, r.inner.version = 2 := by
  unfold construct_neighborhood_db make_modified_db at h
  refine fold_add_node_version_two _ _ ?_ db h
  intro d0 h0
  have hd0 : set_root_version
      (local_db_from_node (from_substratum_node_to_node_record agr)) 2 = d0 := by
    injection h0
  intro r hr
  rw [← hd0] at hr
  simp only [set_root_version, local_db_from_node, List.map_cons, List.map_nil,
    List.mem_singleton] at hr
  rw [hr]
  have hself : ((from_substratum_node_to_node_record agr).resign.inner.public_key
      == (from_substratum_node_to_node_record agr).public_key) = true := by
    simp [NodeRecord.resign, NodeRecord.public_key]
  rw [if_pos hself]
  rfl

/-- Fixtures for the C10 witness: a real-node handle with key 0, model
records for keys 0 and 7, and a mock-node map holding an address for
key 7. -/
def c10_agr : AccessibleGossipRecord :=
  { inner := mk_inner 0 1 [], node_addr_opt := some 100,
    signed_gossip := mk_inner 0 1 [], signature := some (mk_inner 0 1 []) }

def c10_models : List NodeRecord :=
  [mk_valid_record 0 1 [7], mk_valid_record_addr 7 1 [0] (some 7)]

def c10_mock : MockNodeMap := fun k => if k = 7 then some 70 else none

/-- C10 witness: the construction succeeds on the concrete fixtures and
the theorem applies to its result. -/
theorem c10_all_versions_two_witness :
    construct_neighborhood_db c10_agr c10_models c10_mock
        = some ((construct_neighborhood_db c10_agr c10_models c10_mock).getD ⟨0, []⟩) ∧
      ∀ r ∈ ((construct_neighborhood_db c10_agr c10_models c10_mock).getD
          ⟨0, []⟩).records, r.inner.version = 2 :=
  ⟨by decide, c10_all_versions_two c10_agr c10_models c10_mock _ (by decide)⟩

end Substratum
